import Mathlib

/-!
Shallow embedding of the trade-validation comparison engine
(`backend/app/services/comparison_engine.py`) and the PDF branch of the
evidence normalizer (`backend/app/services/evidence_processor.py`).

Python scalars are modelled by `PyVal`; floats are modelled by exact
rationals (`ℚ`), string operations by their Lean counterparts
(`String.trim` for `str.strip`, `String.toLower` for `str.lower`,
both restricted to ASCII, which is the character range the repository
exercises).
-/

namespace TradeValidation

/-- Per-field comparison outcome (`FieldComparison.match_status`). -/
inductive MatchStatus
  | MATCH
  | MISMATCH
  | WITHIN_TOLERANCE
  | LOW_CONFIDENCE
deriving DecidableEq, Repr

/-- Overall document-level status (`ValidationResult.status`). -/
inductive OverallStatus
  | MATCH
  | MISMATCH
  | PARTIAL_STATUS
  | PENDING
deriving DecidableEq, Repr

/-- Scalar Python values that flow through the comparator: strings,
ints, floats (as exact rationals) and `None`. -/
inductive PyVal
  | pstr (s : String)
  | pint (n : ℤ)
  | pfloat (q : ℚ)
  | pnone
deriving DecidableEq, Repr

/-- Drop whitespace from both ends of a character list. -/
def trimChars (cs : List Char) : List Char :=
  ((cs.dropWhile Char.isWhitespace).reverse.dropWhile Char.isWhitespace).reverse

/-- Python `str.strip()` (whitespace at both ends). -/
def pyStrip (s : String) : String := String.mk (trimChars s.data)

/-- Python `str.lower()` (restricted to ASCII). -/
def pyLower (s : String) : String := String.mk (s.data.map Char.toLower)

/-- Split a character list on a separator character (the behaviour of
Python `str.split(sep)` / `String.splitOn` for a one-character
separator). -/
def splitOnChar (sep : Char) : List Char → List (List Char)
  | [] => [[]]
  | c :: rest =>
    match splitOnChar sep rest with
    | h :: t => if c == sep then [] :: h :: t else (c :: h) :: t
    | [] => [[c]]

/-- Decimal rendering of a nonnegative rational that has a finite decimal
expansion; used to model Python `str()` on the float values the engine
sees (system-record numerics such as notionals, written with at most a
few decimal places). -/
def pyFloatStrAbs (q : ℚ) : String :=
  match (List.range 41).find? (fun k => (q * (10 : ℚ) ^ k).den == 1) with
  | some k =>
    let n := (q * (10 : ℚ) ^ k).num.toNat
    if k == 0 then toString n ++ ".0"
    else
      let s := toString n
      let t := (if s.length < k + 1 then String.mk (List.replicate (k + 1 - s.length) (Char.ofNat 48)) else "") ++ s
      t.take (t.length - k) ++ "." ++ t.drop (t.length - k)
  | none => toString q.num ++ "/" ++ toString q.den

/-- Python `str(float)` on signed rationals. -/
def pyFloatStr (q : ℚ) : String :=
  if q < 0 then "-" ++ pyFloatStrAbs (-q) else pyFloatStrAbs q

/-- Python `str()` on a scalar value. -/
def pyStr : PyVal → String
  | .pstr s => s
  | .pint n => toString n
  | .pfloat q => pyFloatStr q
  | .pnone => "None"

/-- Python truthiness of a scalar value. -/
def pyTruthy : PyVal → Bool
  | .pstr s => s ≠ ""
  | .pint n => n ≠ 0
  | .pfloat q => q ≠ 0
  | .pnone => false

/-- Python `==` on the scalar values of the model (numeric values compare
across int/float as in Python). -/
def pyEq : PyVal → PyVal → Bool
  | .pstr a, .pstr b => a == b
  | .pint a, .pint b => a == b
  | .pfloat a, .pfloat b => a == b
  | .pint a, .pfloat b => ((a : ℚ) == b)
  | .pfloat a, .pint b => (a == (b : ℚ))
  | .pnone, .pnone => true
  | _, _ => false

/-- All characters are ASCII decimal digits and the list is nonempty. -/
def isDigits (cs : List Char) : Bool :=
  !cs.isEmpty && cs.all Char.isDigit

/-- Numeric value of a digit list. -/
def digitsVal (cs : List Char) : ℕ :=
  cs.foldl (fun a c => 10 * a + (c.toNat - 48)) 0

/-- Python `float(str)` on the decimal literal forms the engine sees:
optional sign, integer digits, optional fractional digits, with
surrounding whitespace stripped (exponent and underscore forms are not
modelled). Returns `none` where Python `float()` raises `ValueError`. -/
def parseFloatString (s : String) : Option ℚ :=
  let core := fun (u : List Char) =>
    match splitOnChar '.' u with
    | [a] => if isDigits a then some ((digitsVal a : ℤ) : ℚ) else none
    | [a, b] =>
      if (!a.isEmpty || !b.isEmpty) && a.all Char.isDigit && b.all Char.isDigit then
        some (((digitsVal a : ℤ) : ℚ) + ((digitsVal b : ℤ) : ℚ) / ((10 : ℚ) ^ b.length))
      else none
    | _ => none
  match trimChars s.data with
  | '-' :: rest => (core rest).map (fun q => -q)
  | '+' :: rest => core rest
  | t => core t

/-- Python `float(value)` on a scalar: ints and floats coerce, strings
parse as decimal literals, `None` raises (`none` here). -/
def pyToFloat : PyVal → Option ℚ
  | .pint n => some (n : ℚ)
  | .pfloat q => some q
  | .pstr s => parseFloatString s
  | .pnone => none

/-- `MatchingRule.rule_type` (a closed `Literal` in the source schema). -/
inductive RuleType
  | exact
  | tolerance
  | fuzzy
  | date_tolerance
deriving DecidableEq, Repr

/-- `MatchingRule.tolerance_unit` (a closed `Literal` in the source schema). -/
inductive ToleranceUnit
  | percent
  | absolute
  | days
deriving DecidableEq, Repr

/-- `app.models.schemas.MatchingRule`. -/
structure MatchingRule where
  id : String
  field_name : String
  rule_type : RuleType
  tolerance_value : Option ℚ := none
  tolerance_unit : Option ToleranceUnit := none
  min_confidence : ℚ := 0
  enabled : Bool := true
deriving DecidableEq, Repr

/-- The `rule_applied` audit descriptor of a `FieldComparison`.  The source
builds a string (for example `f"min_confidence_{min_confidence}"` or
`f"{rule.rule_type}_{rule.tolerance_value or ''}{rule.tolerance_unit or ''}"`);
the descriptor is modelled as a tagged value carrying exactly the data the
string encodes. -/
inductive RuleApplied
  | min_confidence_tag (v : ℚ)
  | default_exact
  | rule_tag (rt : RuleType) (tv : Option ℚ) (tu : Option ToleranceUnit)
deriving DecidableEq, Repr

/-- `app.models.schemas.FieldComparison`. -/
structure FieldComparison where
  field_name : String
  extracted_value : PyVal
  system_value : PyVal
  match_status : MatchStatus
  confidence : ℚ
  min_required_confidence : Option ℚ := none
  rule_applied : Option RuleApplied := none
deriving DecidableEq, Repr

/-- `app.models.schemas.ExtractedField` (provenance omitted: the
comparison engine never reads it). -/
structure ExtractedField where
  value : PyVal
  confidence : ℚ := 1
deriving DecidableEq, Repr

/-- `app.models.schemas.ExtractedTrade`: the `fields` dict is modelled as
an association list whose first binding for a key wins. -/
structure ExtractedTrade where
  fields : List (String × ExtractedField)
deriving DecidableEq, Repr

/-- Python `extracted.fields.get(name)`. -/
def ExtractedTrade.get (e : ExtractedTrade) (name : String) : Option ExtractedField :=
  (e.fields.find? (fun p => p.1 == name)).map Prod.snd

/-- `app.models.schemas.TRSTrade` (the attributes the comparison engine
reads; ids and timestamps omitted). -/
structure TRSTrade where
  trade_id : String
  party_a : String
  party_b : String
  trade_date : String
  effective_date : String
  scheduled_termination_date : String
  bond_return_payer : String
  bond_return_receiver : String
  local_currency : String
  notional_amount : ℚ
  usd_notional_amount : ℚ
  initial_spot_rate : ℚ
  current_market_price : ℚ
  underlier : Option String := none
  isin : Option String := none
deriving DecidableEq, Repr

/-- Python `getattr(system_trade, field_name, None)` over the schema field
names; `none` models attribute value `None` (optional attributes) or a
missing attribute. -/
def TRSTrade.attr (t : TRSTrade) : String → Option PyVal
  | "trade_id" => some (.pstr t.trade_id)
  | "party_a" => some (.pstr t.party_a)
  | "party_b" => some (.pstr t.party_b)
  | "trade_date" => some (.pstr t.trade_date)
  | "effective_date" => some (.pstr t.effective_date)
  | "scheduled_termination_date" => some (.pstr t.scheduled_termination_date)
  | "bond_return_payer" => some (.pstr t.bond_return_payer)
  | "bond_return_receiver" => some (.pstr t.bond_return_receiver)
  | "local_currency" => some (.pstr t.local_currency)
  | "notional_amount" => some (.pfloat t.notional_amount)
  | "usd_notional_amount" => some (.pfloat t.usd_notional_amount)
  | "initial_spot_rate" => some (.pfloat t.initial_spot_rate)
  | "current_market_price" => some (.pfloat t.current_market_price)
  | "underlier" => t.underlier.map .pstr
  | "isin" => t.isin.map .pstr
  | _ => none

/-- `app.models.schemas.ValidationResult` (the fields the engine writes;
ids, timestamps and the checker-workflow fields omitted). -/
structure ValidationResult where
  document_id : String
  system_trade_id : String
  status : OverallStatus
  field_comparisons : List FieldComparison
  party_a : Option String := none
  party_b : Option String := none
  trade_date : Option String := none
  effective_date : Option String := none
  scheduled_termination_date : Option String := none
  local_currency : Option String := none
  notional_amount : Option ℚ := none
  machine_confidence : Option ℚ := none
deriving DecidableEq, Repr

/-- `ComparisonEngine.get_rule`: first enabled rule whose `field_name`
matches. -/
def get_rule (rules : List MatchingRule) (field_name : String) : Option MatchingRule :=
  rules.find? (fun r => r.field_name == field_name && r.enabled)

/-- `ComparisonEngine._exact_match`. -/
def exact_match (val1 val2 : PyVal) : MatchStatus :=
  match val1, val2 with
  | .pstr a, .pstr b =>
    if pyLower (pyStrip a) == pyLower (pyStrip b) then .MATCH else .MISMATCH
  | _, _ => if pyEq val1 val2 then .MATCH else .MISMATCH

/-- `ComparisonEngine._tolerance_match`: coerce both values to float
(`MISMATCH` on failure), then compare with a percent or absolute
tolerance (any unit other than `percent`, including `days`, takes the
absolute branch, as in the source). -/
def tolerance_match (val1 val2 : PyVal) (tolerance : ℚ) (unit : ToleranceUnit) : MatchStatus :=
  match pyToFloat val1, pyToFloat val2 with
  | some v1, some v2 =>
    match unit with
    | .percent =>
      if v2 = 0 then (if v1 = 0 then .MATCH else .MISMATCH)
      else
        let diff_percent := |v1 - v2| / |v2| * 100
        if diff_percent = 0 then .MATCH
        else if diff_percent ≤ tolerance then .WITHIN_TOLERANCE
        else .MISMATCH
    | _ =>
      let diff := |v1 - v2|
      if diff = 0 then .MATCH
      else if diff ≤ tolerance then .WITHIN_TOLERANCE
      else .MISMATCH
  | _, _ => .MISMATCH

/-- Length of the common prefix of two character lists. -/
def commonPrefixLen : List Char → List Char → ℕ
  | c :: cs, d :: ds => if c == d then commonPrefixLen cs ds + 1 else 0
  | _, _ => 0

/-- `difflib.SequenceMatcher.find_longest_match` over the whole strings:
the longest matching contiguous block, preferring the earliest start in
`a`, then in `b` (strict improvement required to replace the running
best).  Returns `(i, j, size)`. -/
def longestMatchTriple (a b : List Char) : ℕ × ℕ × ℕ :=
  (List.range a.length).foldl
    (fun best i =>
      (List.range b.length).foldl
        (fun best j =>
          let k := commonPrefixLen (a.drop i) (b.drop j)
          if k > best.2.2 then (i, j, k) else best)
        best)
    (0, 0, 0)

/-- Total number of matched characters over the recursive
Ratcliff-Obershelp decomposition used by
`difflib.SequenceMatcher.get_matching_blocks` (the autojunk heuristic,
which only triggers on strings of 200 or more characters, is not
modelled).  `fuel` bounds the recursion depth; `a.length + b.length + 1`
always suffices. -/
def matchedCount : ℕ → List Char → List Char → ℕ
  | 0, _, _ => 0
  | fuel + 1, a, b =>
    let t := longestMatchTriple a b
    if t.2.2 = 0 then 0
    else
      matchedCount fuel (a.take t.1) (b.take t.2.1) + t.2.2 +
        matchedCount fuel (a.drop (t.1 + t.2.2)) (b.drop (t.2.1 + t.2.2))

/-- `difflib.SequenceMatcher(None, s1, s2).ratio()`: `2*M/T` where `M` is
the matched-character total and `T` the combined length; `1` when both
strings are empty, as in `difflib._calculate_ratio`. -/
def seqMatcherRatioQ (s1 s2 : String) : ℚ :=
  let a := s1.data
  let b := s2.data
  let total := a.length + b.length
  if total = 0 then 1
  else 2 * (matchedCount (total + 1) a b : ℚ) / (total : ℚ)

/-- Body of `ComparisonEngine._fuzzy_match`'s `try` block.  For the
scalar values of the model none of the operations can raise, so the
result is always `Except.ok`; the `Except` codomain records where the
source wraps the computation in `try`. -/
def fuzzy_core (val1 val2 : PyVal) (threshold : ℚ) : Except String MatchStatus :=
  let s1 := pyStrip (pyLower (pyStr val1))
  let s2 := pyStrip (pyLower (pyStr val2))
  if s1 == s2 then .ok .MATCH
  else
    let r := seqMatcherRatioQ s1 s2
    if r ≥ (95 : ℚ) / 100 then .ok .MATCH
    else if r ≥ threshold then .ok .WITHIN_TOLERANCE
    else .ok .MISMATCH

/-- The `except Exception: return "MISMATCH"` clause of
`ComparisonEngine._fuzzy_match`. -/
def fuzzyHandle : Except String MatchStatus → MatchStatus
  | .ok s => s
  | .error _ => .MISMATCH

/-- `ComparisonEngine._fuzzy_match` with its default threshold `0.8`. -/
def fuzzy_match (val1 val2 : PyVal) : MatchStatus :=
  fuzzyHandle (fuzzy_core val1 val2 ((8 : ℚ) / 10))

/-- A parsed calendar date (proleptic Gregorian, as `datetime.date`). -/
structure SimpleDate where
  year : ℕ
  month : ℕ
  day : ℕ
deriving DecidableEq, Repr

/-- Gregorian leap-year test. -/
def isLeapYear (y : ℕ) : Bool :=
  y % 4 == 0 && (y % 100 != 0 || y % 400 == 0)

/-- Number of days in a month of a given year. -/
def daysInMonth (y m : ℕ) : ℕ :=
  if m == 2 then (if isLeapYear y then 29 else 28)
  else if m == 4 || m == 6 || m == 9 || m == 11 then 30
  else 31

/-- Day number of a date (days-from-civil construction), so that
subtracting two day numbers gives the `(d1 - d2).days` difference of the
corresponding `datetime` values. -/
def rataDie (d : SimpleDate) : ℕ :=
  let y := d.year - (if d.month ≤ 2 then 1 else 0)
  let era := y / 400
  let yoe := y % 400
  let mp := (d.month + 9) % 12
  let doy := (153 * mp + 2) / 5 + d.day - 1
  let doe := yoe * 365 + yoe / 4 - yoe / 100 + doy
  era * 146097 + doe

/-- Field order of one strptime date format. -/
inductive DateOrder
  | ymd
  | dmy
  | mdy
deriving DecidableEq, Repr

/-- The fixed format list of `ComparisonEngine._parse_date`, in source
order: `%Y-%m-%d`, `%d/%m/%Y`, `%m/%d/%Y`, `%Y/%m/%d`, `%d-%m-%Y`,
`%m-%d-%Y`. -/
def dateFormats : List (DateOrder × Char) :=
  [(.ymd, '-'), (.dmy, '/'), (.mdy, '/'), (.ymd, '/'), (.dmy, '-'), (.mdy, '-')]

/-- One `datetime.strptime(s, fmt)` attempt for a three-part date format:
the year takes exactly four digits, month and day one or two digits, the
whole string must be consumed, and the assembled date must be a valid
calendar date with year at least 1 (otherwise strptime or the `datetime`
constructor raises `ValueError`, modelled as `none`). -/
def tryFormat (s : String) (fmt : DateOrder × Char) : Option SimpleDate :=
  match splitOnChar fmt.2 s.data with
  | [p1, p2, p3] =>
    let parts := match fmt.1 with
      | .ymd => (p1, p2, p3)
      | .dmy => (p3, p2, p1)
      | .mdy => (p3, p1, p2)
    let ys := parts.1
    let ms := parts.2.1
    let ds := parts.2.2
    if isDigits ys && ys.length == 4
        && isDigits ms && ms.length ≤ 2
        && isDigits ds && ds.length ≤ 2 then
      let y := digitsVal ys
      let m := digitsVal ms
      let d := digitsVal ds
      if 1 ≤ y && 1 ≤ m && m ≤ 12 && 1 ≤ d && d ≤ daysInMonth y m then
        some ⟨y, m, d⟩
      else none
    else none
  | _ => none

/-- `ComparisonEngine._parse_date`: `str(value)`, then the first format
of the fixed list that parses wins; `none` when all fail. -/
def parse_date (value : PyVal) : Option SimpleDate :=
  dateFormats.findSome? (tryFormat (pyStr value))

/-- `ComparisonEngine._date_tolerance_match`. -/
def date_tolerance_match (val1 val2 : PyVal) (tolerance_days : ℤ) : MatchStatus :=
  match parse_date val1, parse_date val2 with
  | some d1, some d2 =>
    let diff_days : ℤ := |(rataDie d1 : ℤ) - (rataDie d2 : ℤ)|
    if diff_days = 0 then .MATCH
    else if diff_days ≤ tolerance_days then .WITHIN_TOLERANCE
    else .MISMATCH
  | _, _ => .MISMATCH

/-- Python `int()` on a float: truncation toward zero. -/
def pyIntTrunc (q : ℚ) : ℤ :=
  if 0 ≤ q then ⌊q⌋ else ⌈q⌉

/-- `ComparisonEngine.compare_values`: resolve the rule, gate on
confidence, then dispatch on the rule type (default case-insensitive
trimmed string equality when no enabled rule matches). -/
def compare_values (rules : List MatchingRule) (field_name : String)
    (extracted_value system_value : PyVal) (confidence : ℚ) : FieldComparison :=
  let rule := get_rule rules field_name
  let min_confidence := (rule.map (fun r => r.min_confidence)).getD 0
  if confidence < min_confidence then
    { field_name := field_name
      extracted_value := extracted_value
      system_value := system_value
      match_status := .LOW_CONFIDENCE
      confidence := confidence
      min_required_confidence := some min_confidence
      rule_applied := some (.min_confidence_tag min_confidence) }
  else
    match rule with
    | none =>
      { field_name := field_name
        extracted_value := extracted_value
        system_value := system_value
        match_status :=
          if pyLower (pyStrip (pyStr extracted_value))
              == pyLower (pyStrip (pyStr system_value)) then .MATCH else .MISMATCH
        confidence := confidence
        min_required_confidence := some min_confidence
        rule_applied := some .default_exact }
    | some r =>
      { field_name := field_name
        extracted_value := extracted_value
        system_value := system_value
        match_status :=
          match r.rule_type with
          | .exact => exact_match extracted_value system_value
          | .tolerance =>
            tolerance_match extracted_value system_value
              (r.tolerance_value.getD 0) (r.tolerance_unit.getD .absolute)
          | .fuzzy => fuzzy_match extracted_value system_value
          | .date_tolerance =>
            date_tolerance_match extracted_value system_value
              (pyIntTrunc (r.tolerance_value.getD 0))
        confidence := confidence
        min_required_confidence := some min_confidence
        rule_applied := some (.rule_tag r.rule_type r.tolerance_value r.tolerance_unit) }

/-- The fixed ordered schema field list of
`ComparisonEngine.compare_trs_trade`. -/
def trs_fields : List String :=
  ["trade_id", "party_a", "party_b", "trade_date", "effective_date",
   "scheduled_termination_date", "bond_return_payer", "bond_return_receiver",
   "local_currency", "notional_amount", "usd_notional_amount",
   "initial_spot_rate", "current_market_price", "underlier", "isin"]

/-- `ComparisonEngine._determine_overall_status`. -/
def determine_overall_status (comparisons : List FieldComparison) : OverallStatus :=
  if comparisons.isEmpty then .PENDING
  else
    let match_count := comparisons.countP (fun c => c.match_status == .MATCH)
    let tolerance_count := comparisons.countP (fun c => c.match_status == .WITHIN_TOLERANCE)
    let low_conf_count := comparisons.countP (fun c => c.match_status == .LOW_CONFIDENCE)
    let mismatch_count := comparisons.countP (fun c => c.match_status == .MISMATCH)
    if mismatch_count = 0 ∧ tolerance_count = 0 ∧ low_conf_count = 0 then .MATCH
    else if mismatch_count = 0 ∧ (tolerance_count > 0 ∨ low_conf_count > 0) then .PARTIAL_STATUS
    else if match_count + tolerance_count > mismatch_count then .PARTIAL_STATUS
    else .MISMATCH

/-- Round-half-even to an integer (the rounding of Python `round`). -/
def roundHalfEvenZ (q : ℚ) : ℤ :=
  let f := ⌊q⌋
  let r := q - (f : ℚ)
  if r < 1 / 2 then f
  else if r > 1 / 2 then f + 1
  else if f % 2 = 0 then f else f + 1

/-- Python `round(q, 4)`, idealized over exact rationals. -/
def pyRound4 (q : ℚ) : ℚ :=
  ((roundHalfEvenZ (q * 10000) : ℚ)) / 10000

/-- `ComparisonEngine._average_comparison_confidence`:
`round(sum/len, 4)`, `None` on an empty list. -/
def average_comparison_confidence (comparisons : List FieldComparison) : Option ℚ :=
  if comparisons.isEmpty then none
  else some (pyRound4 ((comparisons.map (fun c => c.confidence)).sum / (comparisons.length : ℚ)))

/-- `ComparisonEngine.compare_trs_trade`: compare every schema field that
is present in the extracted set and non-`None` on the system record,
then aggregate. -/
def compare_trs_trade (rules : List MatchingRule) (extracted : ExtractedTrade)
    (system_trade : TRSTrade) (document_id : String) : ValidationResult :=
  let field_comparisons := trs_fields.filterMap (fun name =>
    match extracted.get name, system_trade.attr name with
    | some ef, some system_value =>
      some (compare_values rules name ef.value system_value ef.confidence)
    | _, _ => none)
  { document_id := document_id
    system_trade_id := system_trade.trade_id
    status := determine_overall_status field_comparisons
    field_comparisons := field_comparisons
    party_a := some system_trade.party_a
    party_b := some system_trade.party_b
    trade_date := some system_trade.trade_date
    effective_date := some system_trade.effective_date
    scheduled_termination_date := some system_trade.scheduled_termination_date
    local_currency := some system_trade.local_currency
    notional_amount := some system_trade.notional_amount
    machine_confidence := average_comparison_confidence field_comparisons }

/-- The per-field scoring weight of `ComparisonEngine.find_best_match`. -/
def matchWeight : MatchStatus → ℚ
  | .MATCH => 1
  | .WITHIN_TOLERANCE => 0.6
  | .LOW_CONFIDENCE => 0.25
  | .MISMATCH => 0

/-- Score of one candidate result: sum of the per-field weights. -/
def candidateScore (result : ValidationResult) : ℚ :=
  (result.field_comparisons.map (fun c => matchWeight c.match_status)).sum

/-- The identifier short-circuit scan of `ComparisonEngine.find_best_match`:
when the extracted `trade_id` field is present and truthy, the first
candidate whose lowercased identifier equals the stripped lowercased
extracted identifier. -/
def shortCircuitCandidate (extracted : ExtractedTrade) (trs_trades : List TRSTrade) :
    Option TRSTrade :=
  match extracted.get "trade_id" with
  | some ef =>
    if pyTruthy ef.value then
      trs_trades.find? (fun t => pyLower t.trade_id == pyLower (pyStrip (pyStr ef.value)))
    else none
  | none => none

/-- One step of the scoring loop of `ComparisonEngine.find_best_match`
(strict `>` to update the running best). -/
def bestStep (acc : ℚ × Option ValidationResult) (result : ValidationResult) :
    ℚ × Option ValidationResult :=
  let score := candidateScore result
  if score > acc.1 then (score, some result) else acc

/-- `ComparisonEngine.find_best_match`. -/
def find_best_match (rules : List MatchingRule) (extracted : ExtractedTrade)
    (trs_trades : List TRSTrade) (document_id : String) : Option ValidationResult :=
  if trs_trades.isEmpty then none
  else
    match shortCircuitCandidate extracted trs_trades with
    | some trade => some (compare_trs_trade rules extracted trade document_id)
    | none =>
      let best :=
        (trs_trades.map (fun t => compare_trs_trade rules extracted t document_id)).foldl
          bestStep ((-1 : ℚ), (none : Option ValidationResult))
      match best.2 with
      | some best_result =>
        if best_result.field_comparisons.isEmpty then none else some best_result
      | none => none

/-- `EvidenceProcessor._combine_text`. -/
def combine_text (pdf_text ocr_text : String) : String :=
  let pdf_clean := pyStrip pdf_text
  let ocr_clean := pyStrip ocr_text
  if pdf_clean ≠ "" ∧ ocr_clean ≠ "" then
    pdf_clean ++ "\n\n[OCR FALLBACK]\n" ++ ocr_clean
  else if pdf_clean ≠ "" then pdf_clean
  else ocr_clean

/-- The content computation of `EvidenceProcessor._prepare_pdf_evidence`,
parameterized by the text the external PDF reader extracts
(`extracted_text`) and the text the external OCR engine would return
(`ocr_raw`, consulted only when the text layer is below the configured
minimum length). -/
def prepare_pdf_content (min_pdf_text_length : ℕ) (extracted_text ocr_raw : String) : String :=
  let needs_ocr := (pyStrip extracted_text).length < min_pdf_text_length
  let ocr_text := if needs_ocr then ocr_raw else ""
  let content := combine_text extracted_text ocr_text
  if content = "" then "[PDF evidence: no extractable text]" else content

/-! Helper lemmas. -/

/-- Every branch of `compare_values` copies the supplied confidence into
the result. -/
theorem compare_values_confidence (rules : List MatchingRule) (field_name : String)
    (v1 v2 : PyVal) (conf : ℚ) :
    (compare_values rules field_name v1 v2 conf).confidence = conf := by
  unfold compare_values
  rcases hr : get_rule rules field_name with _ | r <;> simp [hr] <;> split_ifs <;> rfl

/-- When an enabled rule resolves and the confidence gate passes,
`compare_values` dispatches the match status on the rule type. -/
theorem compare_values_match_status_rule (rules : List MatchingRule) (field_name : String)
    (v1 v2 : PyVal) (conf : ℚ) (r : MatchingRule)
    (hr : get_rule rules field_name = some r) (hc : r.min_confidence ≤ conf) :
    (compare_values rules field_name v1 v2 conf).match_status =
      (match r.rule_type with
       | .exact => exact_match v1 v2
       | .tolerance =>
         tolerance_match v1 v2 (r.tolerance_value.getD 0) (r.tolerance_unit.getD .absolute)
       | .fuzzy => fuzzy_match v1 v2
       | .date_tolerance =>
         date_tolerance_match v1 v2 (pyIntTrunc (r.tolerance_value.getD 0))) := by
  unfold compare_values
  rw [hr]
  simp only [Option.map_some', Option.getD_some]
  rw [if_neg (not_lt.mpr hc)]

/-- When the confidence gate fails, the match status is LOW_CONFIDENCE. -/
theorem compare_values_match_status_lowconf (rules : List MatchingRule) (field_name : String)
    (v1 v2 : PyVal) (conf : ℚ)
    (h : conf < ((get_rule rules field_name).map (fun r => r.min_confidence)).getD 0) :
    (compare_values rules field_name v1 v2 conf).match_status = .LOW_CONFIDENCE := by
  unfold compare_values
  rw [if_pos h]

/-- `_date_tolerance_match` is symmetric in its two values. -/
theorem date_tolerance_match_comm (v1 v2 : PyVal) (td : ℤ) :
    date_tolerance_match v1 v2 td = date_tolerance_match v2 v1 td := by
  unfold date_tolerance_match
  rcases h1 : parse_date v1 with _ | d1 <;> rcases h2 : parse_date v2 with _ | d2 <;>
    simp only [h1, h2]
  rw [abs_sub_comm]

/-- The first result attaining the maximal candidate score — the
claim's description of what the scoring loop returns ("the first
candidate in input order attaining the maximal score"). -/
def firstBestResult (results : List ValidationResult) : Option ValidationResult :=
  results.find? (fun r => results.all (fun y => decide (candidateScore y ≤ candidateScore r)))

/-- `foldl max` dominates its initial value and every list element. -/
theorem le_foldl_max (l : List ℚ) (s : ℚ) :
    s ≤ l.foldl max s ∧ ∀ x ∈ l, x ≤ l.foldl max s := by
  induction l generalizing s with
  | nil => exact ⟨le_refl s, by simp⟩
  | cons a l ih =>
    refine ⟨le_trans (le_max_left s a) (ih (max s a)).1, ?_⟩
    intro x hx
    rcases List.mem_cons.mp hx with rfl | hx2
    · exact le_trans (le_max_right _ _) (ih _).1
    · exact (ih (max s a)).2 x hx2

/-- `foldl max` is at most any common upper bound. -/
theorem foldl_max_le (l : List ℚ) (s b : ℚ) (hs : s ≤ b) (hl : ∀ x ∈ l, x ≤ b) :
    l.foldl max s ≤ b := by
  induction l generalizing s with
  | nil => exact hs
  | cons a l ih =>
    exact ih (max s a) (max_le hs (hl a (List.mem_cons_self a l)))
      (fun x hx => hl x (List.mem_cons_of_mem a hx))

/-- `find?` only depends on the predicate's values on the list. -/
theorem find?_congr_mem (l : List α) (p q : α → Bool) (h : ∀ a ∈ l, p a = q a) :
    l.find? p = l.find? q := by
  induction l with
  | nil => rfl
  | cons a l ih =>
    rw [List.find?_cons, List.find?_cons, h a (List.mem_cons_self a l),
      ih (fun x hx => h x (List.mem_cons_of_mem a hx))]

/-- Full characterization of the strict-improvement selection loop of
`find_best_match`: starting from running best `(s, acc)`, either no
score exceeds `s` and the accumulator survives unchanged, or the loop
ends at the running maximum with the first element attaining it. -/
theorem bestStep_foldl_spec (rs : List ValidationResult) (s : ℚ) (acc : Option ValidationResult) :
    ((rs.map candidateScore).foldl max s = s ∧ rs.foldl bestStep (s, acc) = (s, acc))
    ∨ (s < (rs.map candidateScore).foldl max s
       ∧ ∃ x, rs.find? (fun y =>
             decide ((rs.map candidateScore).foldl max s ≤ candidateScore y)) = some x
           ∧ rs.foldl bestStep (s, acc) = ((rs.map candidateScore).foldl max s, some x)) := by
  induction rs generalizing s acc with
  | nil => exact Or.inl ⟨rfl, rfl⟩
  | cons r rs ih =>
    have hstep : (r :: rs).foldl bestStep (s, acc) = rs.foldl bestStep (bestStep (s, acc) r) := rfl
    have hmax : ((r :: rs).map candidateScore).foldl max s =
        (rs.map candidateScore).foldl max (max s (candidateScore r)) := rfl
    by_cases hgt : candidateScore r > s
    · have hbs : bestStep (s, acc) r = (candidateScore r, some r) := by
        unfold bestStep
        rw [if_pos hgt]
      have hmr : max s (candidateScore r) = candidateScore r := max_eq_right (le_of_lt hgt)
      rcases ih (candidateScore r) (some r) with ⟨hM, hfold⟩ | ⟨hlt, x, hfind, hfold⟩
      · refine Or.inr ⟨?_, r, ?_, ?_⟩
        · rw [hmax, hmr, hM]
          exact hgt
        · rw [List.find?_cons_of_pos]
          rw [hmax, hmr, hM]
          simp
        · rw [hstep, hbs, hfold, hmax, hmr, hM]
      · refine Or.inr ⟨?_, x, ?_, ?_⟩
        · rw [hmax, hmr]
          exact lt_trans hgt hlt
        · rw [hmax, hmr]
          rw [List.find?_cons_of_neg]
          · exact hfind
          · simp only [decide_eq_true_eq, not_le]
            exact hlt
        · rw [hstep, hbs, hfold, hmax, hmr]
    · have hle : candidateScore r ≤ s := not_lt.mp hgt
      have hbs : bestStep (s, acc) r = (s, acc) := by
        unfold bestStep
        rw [if_neg hgt]
      have hml : max s (candidateScore r) = s := max_eq_left hle
      rcases ih s acc with ⟨hM, hfold⟩ | ⟨hlt, x, hfind, hfold⟩
      · exact Or.inl ⟨by rw [hmax, hml, hM], by rw [hstep, hbs, hfold]⟩
      · refine Or.inr ⟨?_, x, ?_, ?_⟩
        · rw [hmax, hml]
          exact hlt
        · rw [hmax, hml]
          rw [List.find?_cons_of_neg]
          · exact hfind
          · simp only [decide_eq_true_eq, not_le]
            exact lt_of_le_of_lt hle hlt
        · rw [hstep, hbs, hfold, hmax, hml]

/-- Every per-field weight is nonnegative, so candidate scores are
nonnegative. -/
theorem candidateScore_nonneg (r : ValidationResult) : 0 ≤ candidateScore r := by
  unfold candidateScore
  apply List.sum_nonneg
  intro x hx
  rcases List.mem_map.mp hx with ⟨c, _, hc⟩
  subst hc
  cases c.match_status <;> norm_num [matchWeight]

/-- A string has length zero exactly when it is empty. -/
theorem string_length_zero_iff (s : String) : s.length = 0 ↔ s = "" := by
  constructor
  · intro h
    cases s with
    | mk data =>
      cases data with
      | nil => rfl
      | cons c cs => simp [String.length] at h
  · intro h
    subst h
    rfl

/-- A sample comparison carrying a given status, for concrete witnesses. -/
def sampleFC (s : MatchStatus) : FieldComparison :=
  { field_name := "f", extracted_value := .pnone, system_value := .pnone,
    match_status := s, confidence := 1 }

/-! Claims. -/

/-- C1: `_determine_overall_status` returns PENDING on the empty list;
MATCH when there is no MISMATCH, no WITHIN_TOLERANCE and no
LOW_CONFIDENCE; PARTIAL when there is no MISMATCH but at least one
WITHIN_TOLERANCE or LOW_CONFIDENCE; otherwise PARTIAL exactly when
match-count plus tolerance-count strictly exceeds mismatch-count and
MISMATCH otherwise (ties resolve to MISMATCH); and the result depends
only on the multiset of statuses, not on their order or on any other
field of the comparisons. -/
theorem c1_determine_overall_status :
    (∀ l : List FieldComparison,
      determine_overall_status l =
        if l = [] then .PENDING
        else if l.countP (fun c => c.match_status == .MISMATCH) = 0
              ∧ l.countP (fun c => c.match_status == .WITHIN_TOLERANCE) = 0
              ∧ l.countP (fun c => c.match_status == .LOW_CONFIDENCE) = 0 then .MATCH
        else if l.countP (fun c => c.match_status == .MISMATCH) = 0
              ∧ (l.countP (fun c => c.match_status == .WITHIN_TOLERANCE) > 0
                 ∨ l.countP (fun c => c.match_status == .LOW_CONFIDENCE) > 0) then .PARTIAL_STATUS
        else if l.countP (fun c => c.match_status == .MATCH)
                + l.countP (fun c => c.match_status == .WITHIN_TOLERANCE)
                > l.countP (fun c => c.match_status == .MISMATCH) then .PARTIAL_STATUS
        else .MISMATCH)
    ∧ (∀ l₁ l₂ : List FieldComparison,
        (l₁.map (fun c => c.match_status)).Perm (l₂.map (fun c => c.match_status)) →
        determine_overall_status l₁ = determine_overall_status l₂) := by
  constructor
  · intro l
    unfold determine_overall_status
    rcases l with _ | ⟨a, l⟩ <;> simp
  · intro l₁ l₂ hp
    have hlen : l₁.length = l₂.length := by
      have := hp.length_eq
      simpa using this
    have hc : ∀ s : MatchStatus,
        l₁.countP (fun c => c.match_status == s) = l₂.countP (fun c => c.match_status == s) := by
      intro s
      have := hp.countP_eq (fun x => x == s)
      simpa [List.countP_map, Function.comp] using this
    have he : l₁.isEmpty = l₂.isEmpty := by
      rcases l₁ with _ | ⟨a, l⟩ <;> rcases l₂ with _ | ⟨b, m⟩ <;> simp_all
    unfold determine_overall_status
    rw [he, hc .MATCH, hc .WITHIN_TOLERANCE, hc .LOW_CONFIDENCE, hc .MISMATCH]

/-- Witness for C1: a concrete pair of permuted status lists, with the
order-independence conjunct applied to them. -/
theorem c1_determine_overall_status_witness :
    determine_overall_status [sampleFC .MATCH, sampleFC .MISMATCH] =
      determine_overall_status [sampleFC .MISMATCH, sampleFC .MATCH] :=
  c1_determine_overall_status.2 _ _ (by decide)

/-- C2: under an enabled tolerance rule with unit `absolute`, once the
confidence gate passes, `compare_values` classifies by the exact
trichotomy on `|v1 - v2|` against the rule's tolerance value (`0` when
unset): MATCH iff the difference is zero, WITHIN_TOLERANCE iff it is
positive and at most the tolerance, MISMATCH otherwise; and when either
value fails float coercion the status is MISMATCH (fails closed). -/
theorem c2_tolerance_absolute (rules : List MatchingRule) (field_name : String)
    (v1 v2 : PyVal) (conf : ℚ) (r : MatchingRule)
    (hr : get_rule rules field_name = some r)
    (ht : r.rule_type = .tolerance)
    (hu : r.tolerance_unit = some .absolute)
    (hc : r.min_confidence ≤ conf) :
    (∀ a b : ℚ, pyToFloat v1 = some a → pyToFloat v2 = some b →
      (((compare_values rules field_name v1 v2 conf).match_status = .MATCH) ↔ |a - b| = 0)
      ∧ (((compare_values rules field_name v1 v2 conf).match_status = .WITHIN_TOLERANCE) ↔
          0 < |a - b| ∧ |a - b| ≤ r.tolerance_value.getD 0)
      ∧ (((compare_values rules field_name v1 v2 conf).match_status = .MISMATCH) ↔
          |a - b| ≠ 0 ∧ r.tolerance_value.getD 0 < |a - b|))
    ∧ ((pyToFloat v1 = none ∨ pyToFloat v2 = none) →
        (compare_values rules field_name v1 v2 conf).match_status = .MISMATCH) := by
  have hms : (compare_values rules field_name v1 v2 conf).match_status =
      tolerance_match v1 v2 (r.tolerance_value.getD 0) .absolute := by
    unfold compare_values
    rw [hr]
    simp only [Option.map_some', Option.getD_some]
    rw [if_neg (not_lt.mpr hc)]
    simp [ht, hu]
  constructor
  · intro a b ha hb
    rw [hms]
    unfold tolerance_match
    rw [ha, hb]
    simp only
    by_cases h0 : |a - b| = 0
    · rw [if_pos h0]
      refine ⟨by simp [h0], ?_, ?_⟩
      · simp [h0]
      · simp [h0]
    · rw [if_neg h0]
      have hpos : 0 < |a - b| := (abs_nonneg _).lt_of_ne (Ne.symm h0)
      by_cases h1 : |a - b| ≤ r.tolerance_value.getD 0
      · rw [if_pos h1]
        refine ⟨by simp [h0], by simp [hpos, h1], ?_⟩
        simp [not_lt.mpr h1]
      · rw [if_neg h1]
        refine ⟨by simp [h0], by simp [h1], by simp [h0, not_le.mp h1]⟩
  · intro h
    rw [hms]
    unfold tolerance_match
    rcases h with h | h
    · rcases hb : pyToFloat v2 with _ | b <;> rw [h]
    · rcases ha : pyToFloat v1 with _ | a <;> rw [h]

/-- A tolerance rule used by the C2 witness. -/
def rule2w : MatchingRule :=
  { id := "r2", field_name := "notional_amount", rule_type := .tolerance,
    tolerance_value := some 1, tolerance_unit := some .absolute, min_confidence := 0.7 }

/-- Witness for C2: `1000000` vs `1000000.5` under tolerance `1.0` at
confidence `0.9` is WITHIN_TOLERANCE. -/
theorem c2_tolerance_absolute_witness :
    (compare_values [rule2w] "notional_amount" (.pfloat 1000000)
      (.pfloat (2000001 / 2)) (9 / 10)).match_status = .WITHIN_TOLERANCE := by
  have h := (c2_tolerance_absolute [rule2w] "notional_amount" (.pfloat 1000000)
    (.pfloat (2000001 / 2)) (9 / 10) rule2w rfl rfl rfl (by norm_num [rule2w])).1
    1000000 (2000001 / 2) rfl rfl
  have habs : |(1000000 : ℚ) - 2000001 / 2| = 1 / 2 := by
    rw [abs_sub_comm, show (2000001 : ℚ) / 2 - 1000000 = 1 / 2 by norm_num]
    exact abs_of_pos (by norm_num)
  exact h.2.1.mpr (by rw [habs]; norm_num [rule2w])

/-- C5: whenever the supplied confidence is below the resolved rule's
minimum confidence (`0` when no enabled rule matches the field),
`compare_values` returns the LOW_CONFIDENCE comparison with the
`min_confidence_<value>` audit descriptor, verbatim copies of both
values, and no value comparison of any kind — for every rule type. -/
theorem c5_low_confidence_gate (rules : List MatchingRule) (field_name : String)
    (v1 v2 : PyVal) (conf : ℚ)
    (h : conf < ((get_rule rules field_name).map (fun r => r.min_confidence)).getD 0) :
    compare_values rules field_name v1 v2 conf =
      { field_name := field_name, extracted_value := v1, system_value := v2,
        match_status := .LOW_CONFIDENCE, confidence := conf,
        min_required_confidence :=
          some (((get_rule rules field_name).map (fun r => r.min_confidence)).getD 0),
        rule_applied :=
          some (.min_confidence_tag
            (((get_rule rules field_name).map (fun r => r.min_confidence)).getD 0)) } := by
  unfold compare_values
  rw [if_pos h]

/-- A fuzzy rule with a high confidence floor, used by the C5 witness. -/
def rule5w : MatchingRule :=
  { id := "r5", field_name := "party_a", rule_type := .fuzzy, min_confidence := 0.9 }

/-- Witness for C5: confidence `0.5` under a `0.9` floor yields the
LOW_CONFIDENCE comparison without comparing the (unequal) values. -/
theorem c5_low_confidence_gate_witness :
    compare_values [rule5w] "party_a" (.pstr "Alpha") (.pstr "Beta") (1 / 2) =
      { field_name := "party_a", extracted_value := .pstr "Alpha",
        system_value := .pstr "Beta", match_status := .LOW_CONFIDENCE,
        confidence := 1 / 2, min_required_confidence := some (9 / 10),
        rule_applied := some (.min_confidence_tag (9 / 10)) } := by
  have hrule : get_rule [rule5w] "party_a" = some rule5w := rfl
  refine (c5_low_confidence_gate [rule5w] "party_a" (.pstr "Alpha") (.pstr "Beta") (1 / 2)
    ?_).trans ?_
  · rw [hrule]
    norm_num [rule5w]
  · rw [hrule]
    norm_num [rule5w]

/-- C7: under an enabled `date_tolerance` rule, swapping the extracted
and system values passed to `compare_values` yields the same match
status (whether the gate trips, both sides parse, or either side is
unparsable); and when the gate passes and either side fails to parse
against the fixed format list the status is MISMATCH. -/
theorem c7_date_tolerance_symmetric (rules : List MatchingRule) (field_name : String)
    (r : MatchingRule) (hr : get_rule rules field_name = some r)
    (ht : r.rule_type = .date_tolerance) (v1 v2 : PyVal) (conf : ℚ) :
    ((compare_values rules field_name v1 v2 conf).match_status =
      (compare_values rules field_name v2 v1 conf).match_status)
    ∧ (r.min_confidence ≤ conf → (parse_date v1 = none ∨ parse_date v2 = none) →
        (compare_values rules field_name v1 v2 conf).match_status = .MISMATCH) := by
  constructor
  · by_cases hg : conf < r.min_confidence
    · have hlt : conf < ((get_rule rules field_name).map (fun r => r.min_confidence)).getD 0 := by
        rw [hr]
        simpa using hg
      rw [compare_values_match_status_lowconf rules field_name v1 v2 conf hlt,
        compare_values_match_status_lowconf rules field_name v2 v1 conf hlt]
    · have hc : r.min_confidence ≤ conf := not_lt.mp hg
      rw [compare_values_match_status_rule rules field_name v1 v2 conf r hr hc,
        compare_values_match_status_rule rules field_name v2 v1 conf r hr hc]
      simp only [ht]
      exact date_tolerance_match_comm v1 v2 _
  · intro hc hnone
    rw [compare_values_match_status_rule rules field_name v1 v2 conf r hr hc]
    simp only [ht]
    unfold date_tolerance_match
    rcases hnone with h | h
    · rcases h2 : parse_date v2 with _ | d <;> rw [h]
    · rcases h1 : parse_date v1 with _ | d <;> rw [h]

/-- A date-tolerance rule used by the C7 witness. -/
def rule7w : MatchingRule :=
  { id := "r7", field_name := "trade_date", rule_type := .date_tolerance,
    tolerance_value := some 2, tolerance_unit := some .days }

/-- Witness for C7: swapping two concrete dates under a two-day
tolerance rule yields the same status. -/
theorem c7_date_tolerance_symmetric_witness :
    (compare_values [rule7w] "trade_date" (.pstr "2024-01-01")
        (.pstr "2024-01-03") 1).match_status =
      (compare_values [rule7w] "trade_date" (.pstr "2024-01-03")
        (.pstr "2024-01-01") 1).match_status :=
  (c7_date_tolerance_symmetric [rule7w] "trade_date" rule7w rfl rfl
    (.pstr "2024-01-01") (.pstr "2024-01-03") 1).1

/-- C9: the business-logic edge cases of `compare_values` are encoded as
MISMATCH classifications rather than exceptions (the embedding is a
total function by construction): an unparsable date on either side of a
`date_tolerance` rule gives MISMATCH, a failed float coercion on either
side of a `tolerance` rule gives MISMATCH, and the handler that models
the fuzzy comparator's `except` clause maps every exception to
MISMATCH. -/
theorem c9_business_edges_encode_mismatch :
    (∀ (rules : List MatchingRule) (field_name : String) (v1 v2 : PyVal) (conf : ℚ)
        (r : MatchingRule), get_rule rules field_name = some r →
        r.rule_type = .date_tolerance → r.min_confidence ≤ conf →
        (parse_date v1 = none ∨ parse_date v2 = none) →
        (compare_values rules field_name v1 v2 conf).match_status = .MISMATCH)
    ∧ (∀ (rules : List MatchingRule) (field_name : String) (v1 v2 : PyVal) (conf : ℚ)
        (r : MatchingRule), get_rule rules field_name = some r →
        r.rule_type = .tolerance → r.min_confidence ≤ conf →
        (pyToFloat v1 = none ∨ pyToFloat v2 = none) →
        (compare_values rules field_name v1 v2 conf).match_status = .MISMATCH)
    ∧ (∀ e : String, fuzzyHandle (.error e) = .MISMATCH) := by
  refine ⟨?_, ?_, fun e => rfl⟩
  · intro rules field_name v1 v2 conf r hr ht hc hnone
    rw [compare_values_match_status_rule rules field_name v1 v2 conf r hr hc]
    simp only [ht]
    unfold date_tolerance_match
    rcases hnone with h | h
    · rcases h2 : parse_date v2 with _ | d <;> rw [h]
    · rcases h1 : parse_date v1 with _ | d <;> rw [h]
  · intro rules field_name v1 v2 conf r hr ht hc hnone
    rw [compare_values_match_status_rule rules field_name v1 v2 conf r hr hc]
    simp only [ht]
    unfold tolerance_match
    rcases hnone with h | h
    · rcases h2 : pyToFloat v2 with _ | b <;> rw [h]
    · rcases h1 : pyToFloat v1 with _ | a <;> rw [h]

/-- A date-tolerance rule used by the C9 witness. -/
def rule9d : MatchingRule :=
  { id := "r9d", field_name := "effective_date", rule_type := .date_tolerance,
    tolerance_value := some 1, tolerance_unit := some .days }

/-- An absolute-tolerance rule used by the C9 witness. -/
def rule9t : MatchingRule :=
  { id := "r9t", field_name := "usd_notional_amount", rule_type := .tolerance,
    tolerance_value := some 1, tolerance_unit := some .absolute }

/-- Witness for C9: an unparsable date, an uncoercible numeric string,
and a concrete exception all land on MISMATCH. -/
theorem c9_business_edges_encode_mismatch_witness :
    (compare_values [rule9d] "effective_date" (.pstr "not a date")
        (.pstr "2024-01-01") 1).match_status = .MISMATCH
    ∧ (compare_values [rule9t] "usd_notional_amount" (.pstr "abc")
        (.pint 5) 1).match_status = .MISMATCH
    ∧ fuzzyHandle (.error "boom") = .MISMATCH :=
  ⟨c9_business_edges_encode_mismatch.1 [rule9d] "effective_date" _ _ 1 rule9d rfl rfl
      (by norm_num [rule9d]) (Or.inl (by decide)),
   c9_business_edges_encode_mismatch.2.1 [rule9t] "usd_notional_amount" _ _ 1 rule9t rfl rfl
      (by norm_num [rule9t]) (Or.inl (by decide)),
   c9_business_edges_encode_mismatch.2.2 "boom"⟩

/-- An extracted set whose `trade_id` value is `"T1"`, for C3. -/
def exC3 : ExtractedTrade := ⟨[("trade_id", ⟨.pstr "T1", 1⟩)]⟩

/-- A candidate whose identifier carries a leading space, for C3. -/
def cexA : TRSTrade :=
  { trade_id := " T1", party_a := "A", party_b := "B", trade_date := "2024-01-01",
    effective_date := "2024-01-02", scheduled_termination_date := "2025-01-02",
    bond_return_payer := "PartyA", bond_return_receiver := "PartyB",
    local_currency := "USD", notional_amount := 5, usd_notional_amount := 5,
    initial_spot_rate := 1, current_market_price := 1 }

/-- A candidate whose identifier is exactly `"T1"`, for C3. -/
def cexB : TRSTrade :=
  { trade_id := "T1", party_a := "A2", party_b := "B2", trade_date := "2024-01-01",
    effective_date := "2024-01-02", scheduled_termination_date := "2025-01-02",
    bond_return_payer := "PartyA", bond_return_receiver := "PartyB",
    local_currency := "USD", notional_amount := 5, usd_notional_amount := 5,
    initial_spot_rate := 1, current_market_price := 1 }

/-- Counterexample to C3 as stated: the extracted `trade_id` is present
and non-empty, and the first candidate's identifier equals the extracted
identifier under case-insensitive trimmed comparison on both sides
(trim then lowercase both), yet `find_best_match` does not return the
comparison against that first candidate — the source lowercases but does
not strip the candidate's identifier, so the scan skips `" T1"` and
short-circuits on the later candidate `"T1"` instead. -/
theorem c3_identifier_short_circuit_counterexample :
    exC3.get "trade_id" = some ⟨.pstr "T1", 1⟩
    ∧ pyLower (pyStrip cexA.trade_id) = pyLower (pyStrip (pyStr (PyVal.pstr "T1")))
    ∧ find_best_match [] exC3 [cexA, cexB] "doc" ≠
        some (compare_trs_trade [] exC3 cexA "doc") := by
  refine ⟨rfl, rfl, ?_⟩
  intro h
  have h1 : find_best_match [] exC3 [cexA, cexB] "doc" =
      some (compare_trs_trade [] exC3 cexB "doc") := rfl
  rw [h1] at h
  exact absurd (congrArg ValidationResult.system_trade_id (Option.some.inj h)) (by decide)

/-- C3 amended: the short-circuit comparison is case-insensitive but
trims only the extracted identifier — for the first candidate whose
lowercased identifier (not trimmed) equals the stripped lowercased
extracted identifier, `find_best_match` returns the full trade
comparison against that candidate, bypassing the scoring loop,
regardless of the other candidates. -/
theorem c3_identifier_short_circuit_amended (rules : List MatchingRule)
    (extracted : ExtractedTrade) (document_id : String)
    (pre post : List TRSTrade) (t : TRSTrade) (ef : ExtractedField)
    (hef : extracted.get "trade_id" = some ef)
    (htruthy : pyTruthy ef.value = true)
    (hmatch : pyLower t.trade_id = pyLower (pyStrip (pyStr ef.value)))
    (hpre : ∀ u ∈ pre, pyLower u.trade_id ≠ pyLower (pyStrip (pyStr ef.value))) :
    find_best_match rules extracted (pre ++ t :: post) document_id =
      some (compare_trs_trade rules extracted t document_id) := by
  have hsc : shortCircuitCandidate extracted (pre ++ t :: post) = some t := by
    unfold shortCircuitCandidate
    rw [hef]
    simp only [htruthy, if_true]
    rw [List.find?_append]
    have hpre2 : pre.find?
        (fun u => pyLower u.trade_id == pyLower (pyStrip (pyStr ef.value))) = none := by
      rw [List.find?_eq_none]
      intro u hu
      simpa [beq_iff_eq] using hpre u hu
    rw [hpre2, List.find?_cons_of_pos _ (by simpa [beq_iff_eq] using hmatch)]
    rfl
  have hne : (pre ++ t :: post).isEmpty = false := by simp
  unfold find_best_match
  rw [hne, hsc]
  rfl

/-- An extracted set whose `trade_id` value is `"trs-9"`, for the C3
witness. -/
def exC3w : ExtractedTrade := ⟨[("trade_id", ⟨.pstr " TRS-9 ", 1⟩)]⟩

/-- A non-matching candidate placed first, for the C3 witness. -/
def cexOther : TRSTrade :=
  { trade_id := "OTHER", party_a := "A", party_b := "B", trade_date := "2024-01-01",
    effective_date := "2024-01-02", scheduled_termination_date := "2025-01-02",
    bond_return_payer := "PartyA", bond_return_receiver := "PartyB",
    local_currency := "USD", notional_amount := 5, usd_notional_amount := 5,
    initial_spot_rate := 1, current_market_price := 1 }

/-- The matching candidate, for the C3 witness. -/
def cexHit : TRSTrade :=
  { trade_id := "trs-9", party_a := "A2", party_b := "B2", trade_date := "2024-01-01",
    effective_date := "2024-01-02", scheduled_termination_date := "2025-01-02",
    bond_return_payer := "PartyA", bond_return_receiver := "PartyB",
    local_currency := "USD", notional_amount := 5, usd_notional_amount := 5,
    initial_spot_rate := 1, current_market_price := 1 }

/-- Witness for the amended C3: the extracted `" TRS-9 "` short-circuits
onto the candidate `"trs-9"` sitting after a non-matching candidate. -/
theorem c3_identifier_short_circuit_amended_witness :
    find_best_match [] exC3w [cexOther, cexHit] "doc" =
      some (compare_trs_trade [] exC3w cexHit "doc") :=
  c3_identifier_short_circuit_amended [] exC3w "doc" [cexOther] [] cexHit
    ⟨.pstr " TRS-9 ", 1⟩ rfl (by decide) (by decide)
    (by intro u hu; fin_cases hu; decide)

/-- An extracted set with one field at confidence `2 ^ (-20)`, for C4. -/
def exC4 : ExtractedTrade := ⟨[("trade_id", ⟨.pstr "T1", 1 / 1048576⟩)]⟩

/-- A matching system record, for C4. -/
def tC4 : TRSTrade :=
  { trade_id := "T1", party_a := "A", party_b := "B", trade_date := "2024-01-01",
    effective_date := "2024-01-02", scheduled_termination_date := "2025-01-02",
    bond_return_payer := "PartyA", bond_return_receiver := "PartyB",
    local_currency := "USD", notional_amount := 5, usd_notional_amount := 5,
    initial_spot_rate := 1, current_market_price := 1 }

/-- Counterexample to C4 as stated: one field is compared, at confidence
`1/1048576` (an exactly float-representable value), so the arithmetic
mean of the compared confidences is `1/1048576`; but `machine_confidence`
is the mean rounded to four decimal places (`round(…, 4)` in the source),
which is `0`, not the mean. -/
theorem c4_machine_confidence_counterexample :
    ((compare_trs_trade [] exC4 tC4 "doc").field_comparisons.map
        (fun c => c.confidence)).sum
        / ((compare_trs_trade [] exC4 tC4 "doc").field_comparisons.length : ℚ)
      = 1 / 1048576
    ∧ (compare_trs_trade [] exC4 tC4 "doc").machine_confidence ≠ some (1 / 1048576) := by
  have hfcs : (compare_trs_trade [] exC4 tC4 "doc").field_comparisons =
      [compare_values [] "trade_id" (.pstr "T1") (.pstr "T1") (1 / 1048576)] := rfl
  have hconf := compare_values_confidence [] "trade_id" (.pstr "T1") (.pstr "T1") (1 / 1048576)
  constructor
  · rw [hfcs]
    simp only [List.map_cons, List.map_nil, List.sum_cons, List.sum_nil,
      List.length_cons, List.length_nil, hconf]
    norm_num
  · have hm : (compare_trs_trade [] exC4 tC4 "doc").machine_confidence =
        average_comparison_confidence
          [compare_values [] "trade_id" (.pstr "T1") (.pstr "T1") (1 / 1048576)] := rfl
    rw [hm]
    unfold average_comparison_confidence
    simp only [List.isEmpty_cons, if_false, List.map_cons, List.map_nil, List.sum_cons,
      List.sum_nil, List.length_cons, List.length_nil, hconf, Bool.false_eq_true]
    have hround : pyRound4 ((1 : ℚ) / 1048576) = 0 := by
      unfold pyRound4 roundHalfEvenZ
      rw [show (1 / 1048576 : ℚ) * 10000 = 625 / 65536 by norm_num]
      rw [show ⌊(625 / 65536 : ℚ)⌋ = 0 by norm_num [Int.floor_eq_iff]]
      norm_num
    have harg : ((1 : ℚ) / 1048576 + 0) / ((0 + 1 : ℕ) : ℚ) = 1 / 1048576 := by
      push_cast
      norm_num
    rw [harg, hround]
    simp only [ne_eq, Option.some.injEq]
    norm_num

/-- C4 amended: `machine_confidence` is the arithmetic mean of the
compared fields' confidences rounded half-even to four decimal places
(`round(sum/len, 4)`), and `None` when no field comparisons were made;
the confidences averaged are exactly those of the fields that were
actually compared (present in the extracted set with a non-`None` system
attribute). -/
theorem c4_machine_confidence_amended (rules : List MatchingRule)
    (extracted : ExtractedTrade) (t : TRSTrade) (document_id : String) :
    ((compare_trs_trade rules extracted t document_id).machine_confidence =
      if (compare_trs_trade rules extracted t document_id).field_comparisons = [] then none
      else some (pyRound4
        (((compare_trs_trade rules extracted t document_id).field_comparisons.map
            (fun c => c.confidence)).sum
          / ((compare_trs_trade rules extracted t document_id).field_comparisons.length : ℚ))))
    ∧ (compare_trs_trade rules extracted t document_id).field_comparisons.map
          (fun c => c.confidence) =
        trs_fields.filterMap (fun name =>
          match extracted.get name, t.attr name with
          | some ef, some _ => some ef.confidence
          | _, _ => none) := by
  constructor
  · have hm : (compare_trs_trade rules extracted t document_id).machine_confidence =
        average_comparison_confidence
          (compare_trs_trade rules extracted t document_id).field_comparisons := rfl
    rw [hm]
    rcases (compare_trs_trade rules extracted t document_id).field_comparisons with _ | ⟨c, l⟩
    · rfl
    · unfold average_comparison_confidence
      simp
  · have hfcs : (compare_trs_trade rules extracted t document_id).field_comparisons =
        trs_fields.filterMap (fun name =>
          match extracted.get name, t.attr name with
          | some ef, some sv =>
            some (compare_values rules name ef.value sv ef.confidence)
          | _, _ => none) := rfl
    rw [hfcs, List.map_filterMap]
    congr 1
    funext name
    rcases he : extracted.get name with _ | ef <;> rcases ha : t.attr name with _ | sv <;>
      simp [compare_values_confidence]

/-- An extracted set whose `trade_id` short-circuits, for the C10
witness. -/
def exC10 : ExtractedTrade := ⟨[("trade_id", ⟨.pstr "W10", 1⟩)]⟩

/-- The matching system record, for the C10 witness. -/
def tC10 : TRSTrade :=
  { trade_id := "W10", party_a := "A", party_b := "B", trade_date := "2024-01-01",
    effective_date := "2024-01-02", scheduled_termination_date := "2025-01-02",
    bond_return_payer := "PartyA", bond_return_receiver := "PartyB",
    local_currency := "USD", notional_amount := 5, usd_notional_amount := 5,
    initial_spot_rate := 1, current_market_price := 1 }

/-- C10: every result `find_best_match` actually returns has a nonempty
comparison list — the scored branch filters an empty best result to
`None` explicitly, and the identifier short-circuit branch always
compares at least `trade_id` itself, since a successful identifier match
implies the extracted `trade_id` field is present and the system
record's `trade_id` attribute is a (non-`None`) string. -/
theorem c10_best_match_nonempty_comparisons (rules : List MatchingRule)
    (extracted : ExtractedTrade) (trs_trades : List TRSTrade) (document_id : String)
    (r : ValidationResult)
    (h : find_best_match rules extracted trs_trades document_id = some r) :
    r.field_comparisons ≠ [] := by
  unfold find_best_match at h
  by_cases hne : trs_trades.isEmpty
  · rw [if_pos hne] at h
    exact absurd h (by simp)
  · rw [if_neg hne] at h
    rcases hsc : shortCircuitCandidate extracted trs_trades with _ | t
    · rw [hsc] at h
      simp only at h
      rcases hb : ((trs_trades.map
          (fun t => compare_trs_trade rules extracted t document_id)).foldl
            bestStep ((-1 : ℚ), (none : Option ValidationResult))).2 with _ | br
      · rw [hb] at h
        exact absurd h (by simp)
      · rw [hb] at h
        simp only at h
        by_cases hemp : br.field_comparisons.isEmpty
        · rw [if_pos hemp] at h
          exact absurd h (by simp)
        · rw [if_neg hemp] at h
          have hbr := Option.some.inj h
          subst hbr
          intro hc
          exact hemp (by simp [hc])
    · rw [hsc] at h
      simp only at h
      have hr := Option.some.inj h
      subst hr
      unfold shortCircuitCandidate at hsc
      rcases hef : extracted.get "trade_id" with _ | ef
      · rw [hef] at hsc
        exact absurd hsc (by simp)
      · rw [hef] at hsc
        simp only at hsc
        have hexp : (compare_trs_trade rules extracted t document_id).field_comparisons =
            trs_fields.filterMap (fun name =>
              match extracted.get name, t.attr name with
              | some ef2, some sv =>
                some (compare_values rules name ef2.value sv ef2.confidence)
              | _, _ => none) := rfl
        rw [hexp, show trs_fields = "trade_id" :: trs_fields.tail from rfl,
          List.filterMap_cons]
        simp only [hef, TRSTrade.attr]
        exact List.cons_ne_nil _ _

/-- Witness for C10: a concrete short-circuit hit, with the invariant
instantiated on it. -/
theorem c10_best_match_nonempty_comparisons_witness :
    (compare_trs_trade [] exC10 tC10 "doc").field_comparisons ≠ [] :=
  c10_best_match_nonempty_comparisons [] exC10 [tC10] "doc"
    (compare_trs_trade [] exC10 tC10 "doc") rfl

/-- C8: the PDF branch of the evidence normalizer never produces an
empty content string (a placeholder marker replaces empty output), and
when the embedded text layer is nonempty but shorter than the configured
minimum and the OCR fallback yields nonempty text, the content is the
text-layer text and the OCR text joined by the explicit
`[OCR FALLBACK]` marker — the text layer is never silently discarded. -/
theorem c8_pdf_evidence_content (min_pdf_text_length : ℕ)
    (extracted_text ocr_raw : String) :
    prepare_pdf_content min_pdf_text_length extracted_text ocr_raw ≠ ""
    ∧ (pyStrip extracted_text ≠ "" →
        (pyStrip extracted_text).length < min_pdf_text_length →
        pyStrip ocr_raw ≠ "" →
        prepare_pdf_content min_pdf_text_length extracted_text ocr_raw =
          pyStrip extracted_text ++ "\n\n[OCR FALLBACK]\n" ++ pyStrip ocr_raw) := by
  constructor
  · simp only [prepare_pdf_content]
    by_cases hc : combine_text extracted_text
        (if (pyStrip extracted_text).length < min_pdf_text_length then ocr_raw else "") = ""
    · rw [if_pos hc]
      decide
    · rw [if_neg hc]
      exact hc
  · intro hp hlen ho
    have hcomb : combine_text extracted_text ocr_raw =
        pyStrip extracted_text ++ "\n\n[OCR FALLBACK]\n" ++ pyStrip ocr_raw := by
      simp only [combine_text]
      rw [if_pos (show pyStrip extracted_text ≠ "" ∧ pyStrip ocr_raw ≠ "" from ⟨hp, ho⟩)]
    have hne : pyStrip extracted_text ++ "\n\n[OCR FALLBACK]\n" ++ pyStrip ocr_raw ≠ "" := by
      intro he
      have hlen0 := congrArg String.length he
      rw [String.length_append, String.length_append,
        show ("\n\n[OCR FALLBACK]\n" : String).length = 17 from by decide,
        show ("" : String).length = 0 from rfl] at hlen0
      omega
    simp only [prepare_pdf_content]
    rw [if_pos hlen, hcomb, if_neg hne]

/-- Witness for C8: a ten-character text layer under threshold 80 with
nonempty OCR text yields the marker-joined content. -/
theorem c8_pdf_evidence_content_witness :
    prepare_pdf_content 80 "short text" " ocr recovered words " =
      "short text" ++ "\n\n[OCR FALLBACK]\n" ++ "ocr recovered words" :=
  (c8_pdf_evidence_content 80 "short text" " ocr recovered words ").2
    (by decide) (by decide) (by decide)

/-- An extracted set with no fields, for the C6 counterexample. -/
def exC6 : ExtractedTrade := ⟨[]⟩

/-- A candidate with no comparable overlap, for the C6 counterexample. -/
def tC6 : TRSTrade :=
  { trade_id := "T6", party_a := "A", party_b := "B", trade_date := "2024-01-01",
    effective_date := "2024-01-02", scheduled_termination_date := "2025-01-02",
    bond_return_payer := "PartyA", bond_return_receiver := "PartyB",
    local_currency := "USD", notional_amount := 5, usd_notional_amount := 5,
    initial_spot_rate := 1, current_market_price := 1 }

/-- Counterexample to C6 as stated: no identifier short-circuit applies
and the single candidate trivially attains the maximal score, yet
`find_best_match` returns `None` instead of that candidate's comparison
result — the source filters out a best result with zero field
comparisons. -/
theorem c6_scored_selection_counterexample :
    shortCircuitCandidate exC6 [tC6] = none
    ∧ (compare_trs_trade [] exC6 tC6 "doc").field_comparisons = []
    ∧ firstBestResult ([tC6].map (fun t => compare_trs_trade [] exC6 t "doc")) =
        some (compare_trs_trade [] exC6 tC6 "doc")
    ∧ find_best_match [] exC6 [tC6] "doc" = none := by
  refine ⟨rfl, rfl, ?_, ?_⟩
  · unfold firstBestResult
    simp only [List.map_cons, List.map_nil, List.all_cons, List.all_nil, Bool.and_true]
    exact List.find?_cons_of_pos _ (decide_eq_true (le_refl _))
  · unfold find_best_match
    simp only [List.isEmpty_cons, Bool.false_eq_true, if_false]
    rw [show shortCircuitCandidate exC6 [tC6] = none from rfl]
    simp only
    have hsc : candidateScore (compare_trs_trade [] exC6 tC6 "doc") = 0 := by
      have h0 : (compare_trs_trade [] exC6 tC6 "doc").field_comparisons = [] := rfl
      unfold candidateScore
      rw [h0]
      rfl
    have hstep : bestStep ((-1 : ℚ), (none : Option ValidationResult))
        (compare_trs_trade [] exC6 tC6 "doc") =
        (0, some (compare_trs_trade [] exC6 tC6 "doc")) := by
      unfold bestStep
      rw [hsc, if_pos (by norm_num)]
    simp only [List.map_cons, List.map_nil, List.foldl_cons, List.foldl_nil]
    rw [hstep]
    rfl

/-- C6 amended: when no identifier short-circuit applies and the
candidate list is nonempty, the scoring loop selects the first candidate
in input order attaining the maximal score (the per-field weights are
`MATCH = 1.0`, `WITHIN_TOLERANCE = 0.6`, `LOW_CONFIDENCE = 0.25`,
`MISMATCH = 0.0`, and strict improvement keeps the earliest candidate on
ties) — except that when the selected result contains no field
comparisons at all, `find_best_match` returns `None` instead of it. -/
theorem c6_scored_selection_amended (rules : List MatchingRule) (extracted : ExtractedTrade)
    (document_id : String) (trs_trades : List TRSTrade)
    (hne : trs_trades ≠ [])
    (hns : shortCircuitCandidate extracted trs_trades = none) :
    ∃ r, firstBestResult
        (trs_trades.map (fun t => compare_trs_trade rules extracted t document_id)) = some r
      ∧ find_best_match rules extracted trs_trades document_id =
          (if r.field_comparisons = [] then none else some r) := by
  set results := trs_trades.map (fun t => compare_trs_trade rules extracted t document_id)
    with hres
  have hrne : results ≠ [] := by
    rcases trs_trades with _ | ⟨t0, ts⟩
    · exact absurd rfl hne
    · simp [hres]
  rcases bestStep_foldl_spec results (-1) none with ⟨hM, _⟩ | ⟨hlt, x, hfind, hfold⟩
  · exfalso
    rcases hr0 : results with _ | ⟨r0, rs⟩
    · exact hrne hr0
    · have h0 : candidateScore r0 ≤ ((r0 :: rs).map candidateScore).foldl max (-1) :=
        (le_foldl_max _ _).2 _ (List.mem_map_of_mem _ (List.mem_cons_self _ _))
      rw [← hr0, hM] at h0
      have h1 := candidateScore_nonneg r0
      linarith
  · refine ⟨x, ?_, ?_⟩
    · have hcong : results.find?
          (fun r => results.all (fun y => decide (candidateScore y ≤ candidateScore r)))
          = results.find? (fun y =>
              decide ((results.map candidateScore).foldl max (-1) ≤ candidateScore y)) := by
        apply find?_congr_mem
        intro a _
        by_cases hdom : ∀ y ∈ results, candidateScore y ≤ candidateScore a
        · have h1 : results.all (fun y => decide (candidateScore y ≤ candidateScore a)) = true := by
            rw [List.all_eq_true]
            intro y hy
            exact decide_eq_true (hdom y hy)
          have h2 : decide ((results.map candidateScore).foldl max (-1) ≤ candidateScore a)
              = true := by
            apply decide_eq_true
            apply foldl_max_le
            · linarith [candidateScore_nonneg a]
            · intro v hv
              rcases List.mem_map.mp hv with ⟨y, hy, rfl⟩
              exact hdom y hy
          rw [h1, h2]
        · push_neg at hdom
          rcases hdom with ⟨y, hy, hgt⟩
          have h1 : results.all (fun y => decide (candidateScore y ≤ candidateScore a))
              = false := by
            rw [Bool.eq_false_iff]
            intro hall
            rw [List.all_eq_true] at hall
            exact absurd (of_decide_eq_true (hall y hy)) (not_le.mpr hgt)
          have h2 : decide ((results.map candidateScore).foldl max (-1) ≤ candidateScore a)
              = false := by
            apply decide_eq_false
            apply not_le.mpr
            exact lt_of_lt_of_le hgt
              ((le_foldl_max (results.map candidateScore) (-1)).2 (candidateScore y)
                (List.mem_map_of_mem _ hy))
          rw [h1, h2]
      unfold firstBestResult
      rw [hcong]
      exact hfind
    · have hie : trs_trades.isEmpty = false := by
        rcases trs_trades with _ | ⟨t0, ts⟩
        · exact absurd rfl hne
        · rfl
      have h2 : (results.foldl bestStep ((-1 : ℚ), (none : Option ValidationResult))).2
          = some x := by
        rw [hfold]
      simp only [find_best_match, hie, Bool.false_eq_true, if_false, hns, ← hres, h2]
      rcases hl : x.field_comparisons with _ | ⟨c, l⟩ <;> simp [hl]

/-- An extracted set with a `party_a` field only, for the C6 witness. -/
def exW6 : ExtractedTrade := ⟨[("party_a", ⟨.pstr "Acme Corp", 1⟩)]⟩

/-- First candidate with a non-matching counterparty, for the C6
witness. -/
def t1W6 : TRSTrade :=
  { trade_id := "A1", party_a := "Other Corp", party_b := "B", trade_date := "2024-01-01",
    effective_date := "2024-01-02", scheduled_termination_date := "2025-01-02",
    bond_return_payer := "PartyA", bond_return_receiver := "PartyB",
    local_currency := "USD", notional_amount := 5, usd_notional_amount := 5,
    initial_spot_rate := 1, current_market_price := 1 }

/-- Second candidate with the matching counterparty, for the C6
witness. -/
def t2W6 : TRSTrade :=
  { trade_id := "A2", party_a := "Acme Corp", party_b := "B", trade_date := "2024-01-01",
    effective_date := "2024-01-02", scheduled_termination_date := "2025-01-02",
    bond_return_payer := "PartyA", bond_return_receiver := "PartyB",
    local_currency := "USD", notional_amount := 5, usd_notional_amount := 5,
    initial_spot_rate := 1, current_market_price := 1 }

/-- Witness for the amended C6: a two-candidate scoring run with no
identifier short-circuit. -/
theorem c6_scored_selection_amended_witness :
    ∃ r, firstBestResult
        ([t1W6, t2W6].map (fun t => compare_trs_trade [] exW6 t "doc")) = some r
      ∧ find_best_match [] exW6 [t1W6, t2W6] "doc" =
          (if r.field_comparisons = [] then none else some r) :=
  c6_scored_selection_amended [] exW6 "doc" [t1W6, t2W6] (by simp) rfl

end TradeValidation
